import Mathlib

/-!
# Verification of the Gesture-Estimation plugin pipeline

A shallow embedding of the core of `src/run_demo_final.py`: the plugin
registry (`PluginManager`), the per-frame detection cycle
(`detection_loop`), the unsynchronized global publication of the frame
cycle output, and the `/api/status` endpoint (`get_status`).

Python dictionaries are modelled as insertion-ordered association lists
(`AList`), matching CPython's guaranteed dict ordering: assignment to a
present key updates it in place, assignment to an absent key appends,
`del` removes, and iteration follows insertion order.
-/

namespace Gesture

/-- A Python `dict` with `String` keys: an insertion-ordered association list. -/
abbrev AList (α : Type) := List (String × α)

/-- Keys of a dict, in insertion order (`list(d.keys())`). -/
def dictKeys {α : Type} (d : AList α) : List String :=
  d.map Prod.fst

/-- `k in d` membership test on a Python dict. -/
def dictContains {α : Type} : AList α → String → Bool
  | [], _ => false
  | p :: d, k => p.1 == k || dictContains d k

/-- `d[k]` lookup (first entry with the key, as in a dict with unique keys). -/
def dictGet {α : Type} : AList α → String → Option α
  | [], _ => none
  | p :: d, k => if p.1 = k then some p.2 else dictGet d k

/-- `d[k] = v`: update in place when the key is present, append otherwise. -/
def dictInsert {α : Type} (d : AList α) (k : String) (v : α) : AList α :=
  if dictContains d k then
    d.map (fun p => if p.1 = k then (k, v) else p)
  else
    d ++ [(k, v)]

/-- `del d[k]`: remove the entry (and any duplicate of it). -/
def dictDelete {α : Type} : AList α → String → AList α
  | [], _ => []
  | p :: d, k => if p.1 = k then dictDelete d k else p :: dictDelete d k

/-! ## Plugin data model

A plugin instance is opaque except for its `run` method.  `run` receives the
raw resized frame, the annotated frame, the optional keypoint set and the
hand-detection result, and either raises or returns a `(msg, color)` pair,
each component possibly `None` (`run_demo_final.py` lines 161-175 validate
the pair before use). -/

/-- A frame is opaque to this development; only its identity matters. -/
abbrev Frame := Nat

/-- One body-joint record `(x, y, confidence)`; coordinates are opaque. -/
abbrev Keypoint := Int × Int × Int

/-- The keypoint array of a single detected person. -/
abbrev KeypointSet := List Keypoint

/-- The `multi_hand_landmarks` field of the MediaPipe result: `None`
    or a list of (opaque) per-hand landmark collections. -/
abbrev HandRes := Option (List Nat)

/-- The argument tuple passed to `plugin_instance.run(frame, annotated, kpts, hand_res)`
    at `run_demo_final.py` line 167. -/
structure PluginArgs where
  frame : Frame
  annotated : Frame
  kpts : Option KeypointSet
  hand_res : HandRes
  deriving Repr, DecidableEq

/-- One component of a plugin-returned color: an opaque Python value on
    which `int(c)` either succeeds with some integer or raises.  Plugins are
    untrusted, so a 3-element color whose components are not int-convertible
    is a representable return value. -/
inductive ColorVal where
  | intVal (n : Int)
  | nonIntVal
  deriving Repr, DecidableEq

/-- Outcome of one `plugin_instance.run(...)` call: the call raises (any
    exception, including failed tuple unpacking), or returns a pair
    `(msg, color)` whose components may each be `None`. -/
inductive RunOutcome where
  | raises
  | returns (msg : Option String) (color : Option (List ColorVal))
  deriving Repr, DecidableEq

/-- `tuple(int(c) for c in color)` (`run_demo_final.py` line 171):
    left-to-right conversion of the color components, raising (`none`) at the
    first component `int` cannot convert. -/
def convertColor : List ColorVal → Option (List Int)
  | [] => some []
  | .intVal n :: rest => (convertColor rest).map (fun l => n :: l)
  | .nonIntVal :: _ => none

/-- A plugin instance, identified with its `run` method. -/
abbrev PluginInst := PluginArgs → RunOutcome

/-- `PluginInfo` (`run_demo_final.py` lines 33-45): plugin metadata and state. -/
structure PluginInfo where
  name : String
  module_name : String
  enabled : Bool
  inst : PluginInst
  display_name : String
  description : String
  version : String
  category : String
  requires_keypoints : Bool
  requires_hands : Bool

/-- The `PluginManager`'s mutable state (`run_demo_final.py` lines 47-53):
    the registry of discovered plugins and the dict of loaded (enabled)
    plugin instances. -/
structure PluginManager where
  available_plugins : AList PluginInfo
  loaded_plugins : AList PluginInst

/-- `PluginManager.enable_plugin` (`run_demo_final.py` lines 99-109).
    Unknown name: return `False` and change nothing.  Known and already
    enabled: no-op returning `True`.  Known and disabled: set the `enabled`
    flag and store the instance in `loaded_plugins`. -/
def enable_plugin (m : PluginManager) (plugin_name : String) : Bool × PluginManager :=
  match dictGet m.available_plugins plugin_name with
  | none => (false, m)
  | some info =>
    if info.enabled then
      (true, m)
    else
      (true,
        { available_plugins :=
            dictInsert m.available_plugins plugin_name { info with enabled := true },
          loaded_plugins := dictInsert m.loaded_plugins plugin_name info.inst })

/-- `PluginManager.disable_plugin` (`run_demo_final.py` lines 111-122). -/
def disable_plugin (m : PluginManager) (plugin_name : String) : Bool × PluginManager :=
  match dictGet m.available_plugins plugin_name with
  | none => (false, m)
  | some info =>
    if info.enabled then
      (true,
        { available_plugins :=
            dictInsert m.available_plugins plugin_name { info with enabled := false },
          loaded_plugins := dictDelete m.loaded_plugins plugin_name })
    else
      (true, m)

/-- `PluginManager.toggle_plugin` (`run_demo_final.py` lines 124-134):
    returns `(success, now_enabled)`. -/
def toggle_plugin (m : PluginManager) (plugin_name : String) :
    (Bool × Bool) × PluginManager :=
  match dictGet m.available_plugins plugin_name with
  | none => ((false, false), m)
  | some info =>
    if info.enabled then
      let r := disable_plugin m plugin_name
      ((r.1, false), r.2)
    else
      let r := enable_plugin m plugin_name
      ((r.1, true), r.2)

/-- `PluginManager.get_enabled_plugins` (`run_demo_final.py` lines 136-138):
    names of enabled plugins in registry (registration) order. -/
def get_enabled_plugins (m : PluginManager) : List String :=
  (m.available_plugins.filter (fun p => p.2.enabled)).map Prod.fst

/-- One iteration of the `run_plugins` loop body (`run_demo_final.py`
    lines 165-173): call the plugin's `run`; on an exception keep the
    accumulator; on a returned pair that passes the shape check at line 169,
    first append `str(msg)` (line 170), then attempt
    `tuple(int(c) for c in color)` (line 171).  When that conversion raises,
    the exception is caught by the same per-plugin `except` (line 172), but
    the message append has already happened — the message stays and only the
    color is missing. -/
def runStep (args : PluginArgs) (acc : List String × List (List Int))
    (p : String × PluginInst) : List String × List (List Int) :=
  match p.2 args with
  | .raises => acc
  | .returns msg color =>
    match msg, color with
    | some m, some c =>
      if m ≠ "" ∧ c ≠ [] ∧ c.length = 3 then
        match convertColor c with
        | some c' => (acc.1 ++ [m], acc.2 ++ [c'])
        | none => (acc.1 ++ [m], acc.2)
      else acc
    | _, _ => acc

/-- `PluginManager.run_plugins` (`run_demo_final.py` lines 161-175):
    iterate `loaded_plugins.items()` in dict (insertion) order, collecting
    validated messages and colors. -/
def run_plugins (loaded : AList PluginInst) (args : PluginArgs) :
    List String × List (List Int) :=
  loaded.foldl (runStep args) ([], [])

/-! ## Plugin discovery

`PluginManager.discover_plugins` (`run_demo_final.py` lines 56-97) scans the
plugin package for `*.py` files.  For each unit: files whose name starts with
`__` are skipped; importing/instantiating the unit may raise (caught, logged,
and discovery continues); a module without a `Plugin` attribute is skipped;
otherwise a `PluginInfo` with `enabled = False` is registered under the file's
base name.  Registration (`self.available_plugins[plugin_name] = plugin_info`)
is the last statement of the `try` block, so a unit that fails at any earlier
step leaves no entry. -/

/-- Metadata read off a successfully constructed plugin instance
    (the `getattr(plugin_instance, ...)` calls, with their defaults already
    applied). -/
structure PluginMeta where
  inst : PluginInst
  display_name : String
  description : String
  version : String
  category : String
  requires_keypoints : Bool
  requires_hands : Bool

/-- How one plugin file behaves when discovery processes it. -/
inductive UnitLoad where
  /-- `importlib.import_module` or `module.Plugin()` raised. -/
  | fails
  /-- The module imported but has no `Plugin` attribute. -/
  | noPluginClass
  /-- `module.Plugin()` succeeded, yielding this metadata. -/
  | loads (meta : PluginMeta)

/-- One candidate plugin file: its base name and its load behavior. -/
structure PluginUnit where
  name : String
  load : UnitLoad

/-- The `PluginInfo` built at `run_demo_final.py` lines 77-88 for a unit
    that loads: `name = module_name = plugin_name`, `enabled = False`. -/
def mkInfo (plugin_name : String) (meta : PluginMeta) : PluginInfo :=
  { name := plugin_name
    module_name := plugin_name
    enabled := false
    inst := meta.inst
    display_name := meta.display_name
    description := meta.description
    version := meta.version
    category := meta.category
    requires_keypoints := meta.requires_keypoints
    requires_hands := meta.requires_hands }

/-- `plugin_name.startswith("__")` (`run_demo_final.py` line 68), written on
    the character list so it computes by kernel reduction. -/
def isDunderName (s : String) : Bool :=
  match s.data with
  | '_' :: '_' :: _ => true
  | _ => false

/-- The body of the discovery loop for one unit. -/
def discoverStep (acc : AList PluginInfo) (u : PluginUnit) : AList PluginInfo :=
  if isDunderName u.name then acc
  else
    match u.load with
    | .fails => acc
    | .noPluginClass => acc
    | .loads meta => dictInsert acc u.name (mkInfo u.name meta)

/-- `PluginManager.discover_plugins` over a given sequence of plugin files. -/
def discover_plugins (units : List PluginUnit) : AList PluginInfo :=
  units.foldl discoverStep []

/-- `PluginManager.__init__`: discover plugins; `loaded_plugins` starts empty. -/
def mkManager (units : List PluginUnit) : PluginManager :=
  { available_plugins := discover_plugins units, loaded_plugins := [] }

/-! ## The per-frame detection cycle

`detection_loop` (`run_demo_final.py` lines 1508-1589), one iteration after a
frame was successfully read.  The two detectors are opaque; an iteration is
parameterized by their outcomes on this frame.  The YOLO call (lines 1526-1539)
is wrapped in `try/except`: on an exception the loop uses `frame_small.copy()`
and `kpts = None`.  Inside the `try`, keypoint extraction has its own bare
`except` mapping failures to `kpts = None`.  The MediaPipe call
`hands.process(rgb)` (line 1543) is NOT wrapped: an exception there propagates
out of `detection_loop`. -/

/-- Outcome of an opaque detector call. -/
inductive DetOutcome (α : Type) where
  | raises
  | ok (val : α)
  deriving Repr, DecidableEq

/-- Outcome of the YOLO pose call and `results[0].plot()`: either the whole
    `try` body raises before `annotated` is set, or it yields an annotated
    frame together with the outcome of the keypoint-data extraction
    (`results[0].keypoints.data.cpu().numpy()`), itself fallible. -/
inductive PoseOutcome where
  | raises
  | ok (annotated : Frame) (kdata : DetOutcome (List KeypointSet))
  deriving Repr, DecidableEq

/-- `kpts = arr[0] if len(arr) else None` (`run_demo_final.py` line 1533):
    keep only the first detected person's keypoints. -/
def extract_kpts (arr : List KeypointSet) : Option KeypointSet :=
  match arr with
  | [] => none
  | k :: _ => some k

/-- The annotated frame after the YOLO block: `results[0].plot()` on success,
    `frame_small.copy()` on exception (modelled as the same opaque frame). -/
def pose_annotated (frame_small : Frame) : PoseOutcome → Frame
  | .raises => frame_small
  | .ok a _ => a

/-- The keypoints after the YOLO block, including the inner bare `except`. -/
def pose_kpts : PoseOutcome → Option KeypointSet
  | .raises => none
  | .ok _ .raises => none
  | .ok _ (.ok arr) => extract_kpts arr

/-- Everything one loop iteration consumes from the outside world. -/
structure CycleInput where
  frame_small : Frame
  pose : PoseOutcome
  hands : DetOutcome HandRes
  cuda : Bool

/-- The `current_status` dict written at `run_demo_final.py` lines 1574-1586. -/
structure StatusSnapshot where
  frame_count : Nat
  person_detected : Bool
  hands_detected : Bool
  plugin_count : Nat
  device : String
  resolution : String
  plugins : List String
  plugins_loaded : Nat
  total_plugins : Nat
  model_loaded : String
  camera : String
  deriving Repr, DecidableEq

/-- The values one completed iteration publishes into the globals
    `current_frame`, `current_messages`, `current_status`. -/
structure CycleOutput where
  frame_count : Nat
  annotated : Frame
  kpts : Option KeypointSet
  messages : List String
  colors : List (List Int)
  status : StatusSnapshot

/-- The argument tuple the loop passes to `run_plugins` at line 1558:
    `(frame_small, annotated, kpts, hand_res)`. -/
def cycleArgs (ci : CycleInput) (hand_res : HandRes) : PluginArgs :=
  { frame := ci.frame_small
    annotated := pose_annotated ci.frame_small ci.pose
    kpts := pose_kpts ci.pose
    hand_res := hand_res }

/-- One iteration of `detection_loop` after `cap.read()` succeeded, with
    `frame_count` the counter value before the iteration's increment
    (line 1520).  `Except.error` models an uncaught exception killing the
    detection thread. -/
def run_cycle (m : PluginManager) (frame_count : Nat) (ci : CycleInput) :
    Except Unit CycleOutput :=
  let fc := frame_count + 1
  match ci.hands with
  | .raises => .error ()
  | .ok hand_res =>
    let r := run_plugins m.loaded_plugins (cycleArgs ci hand_res)
    .ok
      { frame_count := fc
        annotated := pose_annotated ci.frame_small ci.pose
        kpts := pose_kpts ci.pose
        messages := r.1
        colors := r.2
        status :=
          { frame_count := fc
            person_detected := (pose_kpts ci.pose).isSome
            hands_detected := hand_res.isSome
            plugin_count := r.1.length
            device := if ci.cuda then "GPU" else "CPU"
            resolution := "1024x768"
            plugins := get_enabled_plugins m
            plugins_loaded := (get_enabled_plugins m).length
            total_plugins := m.available_plugins.length
            model_loaded := "Yes"
            camera := "Connected" } }

/-! ## The `/api/status` endpoint

`get_status` (`run_demo_final.py` lines 1618-1625) returns the globals
`current_messages` and `current_status` together with a synthesized `colors`
field: the single fixed color `[255, 75, 43]` when `current_messages` is
truthy (non-empty), else the empty list.  The `plugin_colors` computed by
`run_plugins` are never stored in a global (line 1558 vs lines 1569-1571),
so the endpoint cannot return them. -/

/-- The JSON document of `GET /api/status`. -/
structure StatusDoc where
  messages : List String
  status : StatusSnapshot
  colors : List (List Int)
  deriving Repr, DecidableEq

/-- `get_status` (`run_demo_final.py` lines 1618-1625). -/
def get_status (current_messages : List String) (current_status : StatusSnapshot) :
    StatusDoc :=
  { messages := current_messages
    status := current_status
    colors := if current_messages = [] then [] else [[255, 75, 43]] }

/-! ## Publication of the frame cycle output

`detection_loop` publishes each iteration's output through three module-level
globals by three separate plain assignments — `current_frame = annotated`
(line 1570), `current_messages = plugin_msgs` (line 1571),
`current_status = {...}` (line 1574) — with no lock or atomic swap, while
Flask's threaded HTTP workers (`generate_frames` line 1594-1596, `get_status`
lines 1621-1625) read those globals concurrently.  We model the publication
and the reads as individual atomic actions on a shared store (each Python
assignment/read of one global is atomic under the GIL) and consider
arbitrary interleavings of the producer's actions with a reader's.  Each
global holds the number of the cycle whose data it currently carries. -/

/-- One atomic access to the shared globals: a producer write of one global
    with cycle `n`'s data, or a reader's load of one global. -/
inductive Action where
  | writeFrame (n : Nat)
  | writeMsgs (n : Nat)
  | writeStatus (n : Nat)
  | readFrame
  | readMsgs
  | readStatus
  deriving Repr, DecidableEq

/-- The shared globals plus the reader's local copies; every field records
    which cycle's data it holds (cycle 0 = initial values). -/
structure Shared where
  gFrame : Nat
  gMsgs : Nat
  gStatus : Nat
  obsFrame : Nat
  obsMsgs : Nat
  obsStatus : Nat
  deriving Repr, DecidableEq

/-- Initial store: the pre-first-publish values (`current_frame = None`, etc.). -/
def initShared : Shared :=
  { gFrame := 0, gMsgs := 0, gStatus := 0, obsFrame := 0, obsMsgs := 0, obsStatus := 0 }

/-- Effect of one atomic action. -/
def stepShared (s : Shared) : Action → Shared
  | .writeFrame n => { s with gFrame := n }
  | .writeMsgs n => { s with gMsgs := n }
  | .writeStatus n => { s with gStatus := n }
  | .readFrame => { s with obsFrame := s.gFrame }
  | .readMsgs => { s with obsMsgs := s.gMsgs }
  | .readStatus => { s with obsStatus := s.gStatus }

/-- Run a schedule of atomic actions. -/
def execShared (s : Shared) (tr : List Action) : Shared :=
  tr.foldl stepShared s

/-- The producer's publication sequence for cycle `n`, in the source order of
    `run_demo_final.py` lines 1570, 1571, 1574. -/
def publishActions (n : Nat) : List Action :=
  [.writeFrame n, .writeMsgs n, .writeStatus n]

/-- The producer's action sequence for cycles `1..n`. -/
def producerActions : Nat → List Action
  | 0 => []
  | n + 1 => producerActions n ++ publishActions (n + 1)

/-- A reader that samples the published frame and then the published
    messages (e.g. a client consuming `/video_feed` and `/api/status`
    for the same display update). -/
def readerActions : List Action :=
  [.readFrame, .readMsgs]

/-- `tr` is an interleaving of the two sequences `p` and `q`, each kept in
    order.  The threaded Flask server imposes no further ordering between
    the producer thread and a reader thread. -/
inductive Interleaves : List Action → List Action → List Action → Prop
  | nil : Interleaves [] [] []
  | left {a p q tr} : Interleaves tr p q → Interleaves (a :: tr) (a :: p) q
  | right {a p q tr} : Interleaves tr p q → Interleaves (a :: tr) p (a :: q)

/-! ## Dictionary lemmas -/

section DictLemmas

variable {α : Type}

theorem dictContains_eq_isSome (d : AList α) (k : String) :
    dictContains d k = (dictGet d k).isSome := by
  induction d with
  | nil => rfl
  | cons p d ih =>
    by_cases hp : p.1 = k <;> simp [dictContains, dictGet, hp, ih]

theorem dictGet_update_self (d : AList α) (k : String) (v : α)
    (h : dictContains d k = true) :
    dictGet (d.map (fun p => if p.1 = k then (k, v) else p)) k = some v := by
  induction d with
  | nil => simp [dictContains] at h
  | cons p d ih =>
    by_cases hp : p.1 = k
    · simp [dictGet, hp]
    · simp only [dictContains, Bool.or_eq_true, beq_iff_eq, hp, false_or] at h
      simp [dictGet, hp, ih h]

theorem dictGet_update_ne (d : AList α) (k k' : String) (v : α)
    (h : k' ≠ k) :
    dictGet (d.map (fun p => if p.1 = k then (k, v) else p)) k' = dictGet d k' := by
  induction d with
  | nil => rfl
  | cons p d ih =>
    by_cases hp : p.1 = k
    · simp [dictGet, hp, Ne.symm h, ih]
    · by_cases hp' : p.1 = k' <;> simp [dictGet, hp, hp', h, ih]

theorem dictGet_append (d₁ d₂ : AList α) (k : String) :
    dictGet (d₁ ++ d₂) k =
      match dictGet d₁ k with
      | some v => some v
      | none => dictGet d₂ k := by
  induction d₁ with
  | nil => rfl
  | cons p d ih =>
    by_cases hp : p.1 = k <;> simp [dictGet, hp, ih]

theorem dictGet_dictInsert_self (d : AList α) (k : String) (v : α) :
    dictGet (dictInsert d k v) k = some v := by
  unfold dictInsert
  by_cases hc : dictContains d k = true
  · simp [hc, dictGet_update_self d k v hc]
  · simp only [Bool.not_eq_true] at hc
    have hnone : (dictGet d k).isSome = false := by
      rw [← dictContains_eq_isSome]; exact hc
    simp only [hc, Bool.false_eq_true, if_false, dictGet_append]
    cases hg : dictGet d k with
    | none => simp [dictGet]
    | some w => rw [hg] at hnone; simp at hnone

theorem dictGet_dictInsert_ne (d : AList α) (k k' : String) (v : α)
    (h : k' ≠ k) : dictGet (dictInsert d k v) k' = dictGet d k' := by
  unfold dictInsert
  by_cases hc : dictContains d k = true
  · simp [hc, dictGet_update_ne d k k' v h]
  · simp only [Bool.not_eq_true] at hc
    simp only [hc, Bool.false_eq_true, if_false, dictGet_append]
    cases hg : dictGet d k' with
    | none => simp [dictGet, Ne.symm h]
    | some w => rfl

theorem dictContains_dictInsert (d : AList α) (k k' : String) (v : α) :
    dictContains (dictInsert d k v) k' = (k' == k || dictContains d k') := by
  by_cases h : k' = k
  · subst h
    simp [dictContains_eq_isSome, dictGet_dictInsert_self]
  · rw [dictContains_eq_isSome, dictGet_dictInsert_ne d k k' v h,
      ← dictContains_eq_isSome]
    simp [h]

theorem dictGet_dictDelete (d : AList α) (k k' : String) :
    dictGet (dictDelete d k) k' = if k' = k then none else dictGet d k' := by
  induction d with
  | nil => simp [dictDelete, dictGet]
  | cons p d ih =>
    by_cases h : k' = k
    · subst h
      by_cases hp : p.1 = k' <;> simp [dictDelete, dictGet, hp, ih]
    · by_cases hp : p.1 = k
      · have hp' : ¬ p.1 = k' := fun hh => h (by rw [← hh]; exact hp)
        have hkk' : ¬ k = k' := fun hh => h hh.symm
        simp [dictDelete, dictGet, hp, hp', ih, h, hkk']
      · by_cases hp' : p.1 = k' <;> simp [dictDelete, dictGet, hp, hp', ih, h]

theorem dictContains_dictDelete (d : AList α) (k k' : String) :
    dictContains (dictDelete d k) k' =
      if k' = k then false else dictContains d k' := by
  by_cases h : k' = k <;>
    simp [dictContains_eq_isSome, dictGet_dictDelete, h]

theorem dictKeys_update (d : AList α) (k : String) (v : α) :
    dictKeys (d.map (fun p => if p.1 = k then (k, v) else p)) = dictKeys d := by
  induction d with
  | nil => rfl
  | cons p d ih =>
    simp only [dictKeys, List.map_cons] at ih ⊢
    by_cases hp : p.1 = k
    · rw [if_pos hp, hp]
      exact congrArg (k :: ·) ih
    · rw [if_neg hp]
      exact congrArg (p.1 :: ·) ih

theorem dictContains_iff_mem_keys (d : AList α) (k : String) :
    dictContains d k = true ↔ k ∈ dictKeys d := by
  induction d with
  | nil => simp [dictContains, dictKeys]
  | cons p d ih =>
    simp only [dictContains, dictKeys, List.map_cons, List.mem_cons,
      Bool.or_eq_true, beq_iff_eq]
    simp only [dictKeys] at ih
    rw [ih]
    constructor
    · rintro (h | h)
      · exact Or.inl h.symm
      · exact Or.inr h
    · rintro (h | h)
      · exact Or.inl h.symm
      · exact Or.inr h

theorem dictKeys_dictInsert_nodup (d : AList α) (k : String) (v : α)
    (h : (dictKeys d).Nodup) : (dictKeys (dictInsert d k v)).Nodup := by
  unfold dictInsert
  by_cases hc : dictContains d k = true
  · simpa [hc, dictKeys_update] using h
  · simp only [Bool.not_eq_true] at hc
    simp only [hc, Bool.false_eq_true, if_false]
    have hkk : k ∉ dictKeys d := fun hm => by
      rw [(dictContains_iff_mem_keys d k).mpr hm] at hc
      exact Bool.noConfusion hc
    rw [show dictKeys (d ++ [(k, v)]) = dictKeys d ++ [k] by simp [dictKeys]]
    rw [List.nodup_append]
    refine ⟨h, List.nodup_singleton k, ?_⟩
    intro a ha hb
    rw [List.mem_singleton] at hb
    subst hb
    exact hkk ha

theorem dictGet_of_mem (d : AList α) (p : String × α)
    (hnd : (dictKeys d).Nodup) (hm : p ∈ d) : dictGet d p.1 = some p.2 := by
  induction d with
  | nil => simp at hm
  | cons q d ih =>
    rcases List.mem_cons.mp hm with h | h
    · subst h; simp [dictGet]
    · have hq : ¬ q.1 = p.1 := by
        intro hh
        have : p.1 ∈ dictKeys d := List.mem_map_of_mem Prod.fst h
        simp only [dictKeys, List.map_cons, List.nodup_cons] at hnd
        exact hnd.1 (hh ▸ this)
      have hnd' : (dictKeys d).Nodup := by
        simp only [dictKeys, List.map_cons, List.nodup_cons] at hnd
        exact hnd.2
      simp [dictGet, hq, ih hnd' h]

theorem mem_of_dictGet (d : AList α) (k : String) (v : α)
    (h : dictGet d k = some v) : (k, v) ∈ d := by
  induction d with
  | nil => simp [dictGet] at h
  | cons q d ih =>
    by_cases hq : q.1 = k
    · simp only [dictGet, hq, if_true, Option.some.injEq] at h
      have hqv : q = (k, v) := by
        rw [Prod.ext_iff]
        exact ⟨hq, h⟩
      rw [← hqv]
      exact List.mem_cons_self q d
    · simp only [dictGet, hq, if_false] at h
      exact List.mem_cons_of_mem q (ih h)

end DictLemmas

/-! ## Structural lemmas about `run_plugins` -/

/-- What one loaded plugin contributes to the dispatch output: nothing (its
    `run` raised or failed the shape check at line 169), a message with its
    converted color, or — when the `int()` conversion at line 171 raises
    after the message append at line 170 — a message alone. -/
inductive PluginContrib where
  | nothing
  | msgOnly (m : String)
  | msgColor (m : String) (c : List Int)
  deriving Repr, DecidableEq

/-- The contribution of one plugin on the given arguments. -/
def pluginContrib (args : PluginArgs) (p : String × PluginInst) :
    PluginContrib :=
  match p.2 args with
  | .raises => .nothing
  | .returns msg color =>
    match msg, color with
    | some m, some c =>
      if m ≠ "" ∧ c ≠ [] ∧ c.length = 3 then
        match convertColor c with
        | some c' => .msgColor m c'
        | none => .msgOnly m
      else .nothing
    | _, _ => .nothing

/-- The message a plugin contributes at line 170 — appended whether or not
    the subsequent color conversion at line 171 succeeds. -/
def pluginMsg (args : PluginArgs) (p : String × PluginInst) : Option String :=
  match p.2 args with
  | .raises => none
  | .returns msg color =>
    match msg, color with
    | some m, some c =>
      if m ≠ "" ∧ c ≠ [] ∧ c.length = 3 then some m else none
    | _, _ => none

theorem pluginMsg_eq_contrib (args : PluginArgs) (p : String × PluginInst) :
    pluginMsg args p =
      match pluginContrib args p with
      | .nothing => none
      | .msgOnly m => some m
      | .msgColor m _ => some m := by
  rcases hout : p.2 args with _ | ⟨msg, color⟩
  · simp [pluginMsg, pluginContrib, hout]
  · rcases msg with _ | m
    · simp [pluginMsg, pluginContrib, hout]
    · rcases color with _ | c
      · simp [pluginMsg, pluginContrib, hout]
      · by_cases hval : m ≠ "" ∧ c ≠ [] ∧ c.length = 3
        · cases hc : convertColor c <;>
            simp [pluginMsg, pluginContrib, hout, hval, hc]
        · simp [pluginMsg, pluginContrib, hout, hval]

theorem runStep_eq (args : PluginArgs) (acc : List String × List (List Int))
    (p : String × PluginInst) :
    runStep args acc p =
      match pluginContrib args p with
      | .nothing => acc
      | .msgOnly m => (acc.1 ++ [m], acc.2)
      | .msgColor m c => (acc.1 ++ [m], acc.2 ++ [c]) := by
  rcases hout : p.2 args with _ | ⟨msg, color⟩
  · simp [runStep, pluginContrib, hout]
  · rcases msg with _ | m
    · simp [runStep, pluginContrib, hout]
    · rcases color with _ | c
      · simp [runStep, pluginContrib, hout]
      · by_cases hval : m ≠ "" ∧ c ≠ [] ∧ c.length = 3
        · cases hc : convertColor c <;>
            simp [runStep, pluginContrib, hout, hval, hc]
        · simp [runStep, pluginContrib, hout, hval]

theorem run_plugins_acc (l : AList PluginInst) (args : PluginArgs)
    (acc : List String × List (List Int)) :
    l.foldl (runStep args) acc =
      (acc.1 ++ (run_plugins l args).1, acc.2 ++ (run_plugins l args).2) := by
  induction l generalizing acc with
  | nil => simp [run_plugins]
  | cons p l ih =>
    rw [show run_plugins (p :: l) args
        = List.foldl (runStep args) (runStep args ([], []) p) l from rfl]
    rw [List.foldl_cons, ih (runStep args acc p), ih (runStep args ([], []) p)]
    rw [runStep_eq args acc p, runStep_eq args ([], []) p]
    cases pluginContrib args p <;> simp

theorem run_plugins_cons (p : String × PluginInst) (l : AList PluginInst)
    (args : PluginArgs) :
    run_plugins (p :: l) args =
      match pluginContrib args p with
      | .nothing => run_plugins l args
      | .msgOnly m => (m :: (run_plugins l args).1, (run_plugins l args).2)
      | .msgColor m c =>
        (m :: (run_plugins l args).1, c :: (run_plugins l args).2) := by
  rw [show run_plugins (p :: l) args
      = List.foldl (runStep args) (runStep args ([], []) p) l from rfl]
  rw [run_plugins_acc l args, runStep_eq args ([], []) p]
  cases pluginContrib args p <;> simp

theorem run_plugins_append (l₁ l₂ : AList PluginInst) (args : PluginArgs) :
    run_plugins (l₁ ++ l₂) args =
      ((run_plugins l₁ args).1 ++ (run_plugins l₂ args).1,
       (run_plugins l₁ args).2 ++ (run_plugins l₂ args).2) := by
  unfold run_plugins
  rw [List.foldl_append, run_plugins_acc l₂ args]
  rfl

theorem run_plugins_messages_eq_filterMap (l : AList PluginInst)
    (args : PluginArgs) :
    (run_plugins l args).1 = l.filterMap (pluginMsg args) := by
  induction l with
  | nil => rfl
  | cons p l ih =>
    rw [run_plugins_cons, List.filterMap_cons, pluginMsg_eq_contrib]
    cases pluginContrib args p <;> simp [ih]

theorem run_plugins_colors_le_messages (l : AList PluginInst)
    (args : PluginArgs) :
    (run_plugins l args).2.length ≤ (run_plugins l args).1.length := by
  induction l with
  | nil => exact Nat.le_refl 0
  | cons p l ih =>
    rw [run_plugins_cons]
    cases pluginContrib args p <;> simp <;> omega

/-! ## The registry consistency invariant -/

/-- The `PluginManager` consistency property: registry keys are unique, and a
    plugin's `enabled` flag is set exactly when its name is a key of the
    `loaded_plugins` dict that `run_plugins` iterates. -/
def Invariant (m : PluginManager) : Prop :=
  (dictKeys m.available_plugins).Nodup ∧
  ∀ n, dictContains m.loaded_plugins n = true ↔
    ∃ info, dictGet m.available_plugins n = some info ∧ info.enabled = true

theorem discover_enabled_false (units : List PluginUnit) (n : String)
    (info : PluginInfo) (h : dictGet (discover_plugins units) n = some info) :
    info.enabled = false := by
  suffices hgen : ∀ (us : List PluginUnit) (acc : AList PluginInfo),
      (∀ k i, dictGet acc k = some i → i.enabled = false) →
      ∀ k i, dictGet (us.foldl discoverStep acc) k = some i → i.enabled = false by
    exact hgen units [] (fun k i hk => by simp [dictGet] at hk) n info h
  intro us
  induction us with
  | nil => intro acc hacc; simpa using hacc
  | cons u us ih =>
    intro acc hacc
    rw [List.foldl_cons]
    apply ih
    intro k i hget
    unfold discoverStep at hget
    by_cases hd : isDunderName u.name
    · rw [if_pos hd] at hget
      exact hacc k i hget
    · rw [if_neg hd] at hget
      cases hl : u.load with
      | fails => rw [hl] at hget; exact hacc k i hget
      | noPluginClass => rw [hl] at hget; exact hacc k i hget
      | loads meta =>
        rw [hl] at hget
        by_cases hk : k = u.name
        · subst hk
          rw [dictGet_dictInsert_self] at hget
          injection hget with hi
          rw [← hi]
          rfl
        · rw [dictGet_dictInsert_ne _ _ _ _ hk] at hget
          exact hacc k i hget

theorem discover_keys_nodup (units : List PluginUnit) :
    (dictKeys (discover_plugins units)).Nodup := by
  suffices hgen : ∀ (us : List PluginUnit) (acc : AList PluginInfo),
      (dictKeys acc).Nodup → (dictKeys (us.foldl discoverStep acc)).Nodup by
    exact hgen units [] (by simp [dictKeys])
  intro us
  induction us with
  | nil => intro acc hacc; simpa using hacc
  | cons u us ih =>
    intro acc hacc
    rw [List.foldl_cons]
    apply ih
    unfold discoverStep
    by_cases hd : isDunderName u.name
    · rw [if_pos hd]; exact hacc
    · rw [if_neg hd]
      cases hl : u.load with
      | fails => exact hacc
      | noPluginClass => exact hacc
      | loads meta => exact dictKeys_dictInsert_nodup _ _ _ hacc

theorem invariant_mkManager (units : List PluginUnit) :
    Invariant (mkManager units) := by
  refine ⟨discover_keys_nodup units, fun n => ?_⟩
  constructor
  · intro h
    exact absurd h (by simp [mkManager, dictContains])
  · rintro ⟨info, hget, hen⟩
    have hfalse := discover_enabled_false units n info hget
    rw [hen] at hfalse
    exact Bool.noConfusion hfalse

theorem invariant_enable (m : PluginManager) (name : String)
    (h : Invariant m) : Invariant (enable_plugin m name).2 := by
  obtain ⟨hnd, hinv⟩ := h
  unfold enable_plugin
  cases hget : dictGet m.available_plugins name with
  | none => exact ⟨hnd, hinv⟩
  | some info =>
    by_cases hen : info.enabled
    · simp only [hen, if_true]
      exact ⟨hnd, hinv⟩
    · simp only [hen, Bool.false_eq_true, if_false]
      refine ⟨dictKeys_dictInsert_nodup _ _ _ hnd, fun n => ?_⟩
      rw [dictContains_dictInsert]
      by_cases hn : n = name
      · subst hn
        simp only [beq_self_eq_true, Bool.true_or, true_iff]
        exact ⟨{ info with enabled := true }, dictGet_dictInsert_self _ _ _, rfl⟩
      · rw [dictGet_dictInsert_ne _ _ _ _ hn]
        rw [show (n == name) = false by simpa using hn, Bool.false_or]
        exact hinv n

theorem invariant_disable (m : PluginManager) (name : String)
    (h : Invariant m) : Invariant (disable_plugin m name).2 := by
  obtain ⟨hnd, hinv⟩ := h
  unfold disable_plugin
  cases hget : dictGet m.available_plugins name with
  | none => exact ⟨hnd, hinv⟩
  | some info =>
    by_cases hen : info.enabled
    · simp only [hen, if_true]
      refine ⟨dictKeys_dictInsert_nodup _ _ _ hnd, fun n => ?_⟩
      rw [dictContains_dictDelete]
      by_cases hn : n = name
      · subst hn
        simp only [if_pos rfl]
        constructor
        · intro hfalse
          exact absurd hfalse (by simp)
        · rintro ⟨info', hget', hen'⟩
          rw [dictGet_dictInsert_self] at hget'
          injection hget' with hi
          rw [← hi] at hen'
          exact absurd hen' (by simp)
      · rw [if_neg hn, dictGet_dictInsert_ne _ _ _ _ hn]
        exact hinv n
    · simp only [hen, Bool.false_eq_true, if_false]
      exact ⟨hnd, hinv⟩

theorem invariant_toggle (m : PluginManager) (name : String)
    (h : Invariant m) : Invariant (toggle_plugin m name).2 := by
  unfold toggle_plugin
  cases hget : dictGet m.available_plugins name with
  | none => exact h
  | some info =>
    by_cases hen : info.enabled
    · simp only [hen, if_true]
      exact invariant_disable m name h
    · simp only [hen, Bool.false_eq_true, if_false]
      exact invariant_enable m name h

theorem loaded_iff_enabled (m : PluginManager) (h : Invariant m) (n : String) :
    dictContains m.loaded_plugins n = true ↔ n ∈ get_enabled_plugins m := by
  obtain ⟨hnd, hinv⟩ := h
  rw [hinv n]
  unfold get_enabled_plugins
  constructor
  · rintro ⟨info, hget, hen⟩
    have hmem := mem_of_dictGet _ _ _ hget
    exact List.mem_map_of_mem Prod.fst
      (List.mem_filter.mpr ⟨hmem, by simp [hen]⟩)
  · intro hmem
    rcases List.mem_map.mp hmem with ⟨p, hp, hfst⟩
    have hpf := List.mem_filter.mp hp
    refine ⟨p.2, ?_, ?_⟩
    · rw [← hfst]
      exact dictGet_of_mem _ _ hnd hpf.1
    · simpa using hpf.2

/-! ## Discovery lemmas -/

theorem discover_skip (units : List PluginUnit) (acc : AList PluginInfo)
    (n : String) (h : n ∉ units.map PluginUnit.name) :
    dictGet (units.foldl discoverStep acc) n = dictGet acc n := by
  induction units generalizing acc with
  | nil => rfl
  | cons u units ih =>
    simp only [List.map_cons, List.mem_cons, not_or] at h
    rw [List.foldl_cons, ih _ h.2]
    unfold discoverStep
    by_cases hd : isDunderName u.name
    · rw [if_pos hd]
    · rw [if_neg hd]
      cases hl : u.load with
      | fails => rfl
      | noPluginClass => rfl
      | loads meta => exact dictGet_dictInsert_ne _ _ _ _ h.1

theorem names_split (l₁ l₂ : List PluginUnit) (u : PluginUnit)
    (hnd : ((l₁ ++ u :: l₂).map PluginUnit.name).Nodup) :
    u.name ∉ l₁.map PluginUnit.name ∧ u.name ∉ l₂.map PluginUnit.name := by
  rw [List.map_append, List.map_cons, List.nodup_append] at hnd
  obtain ⟨h₁, h₂, hdisj⟩ := hnd
  exact ⟨fun hmem => hdisj hmem (List.mem_cons_self _ _),
    (List.nodup_cons.mp h₂).1⟩

theorem discover_present (l₁ l₂ : List PluginUnit) (v : PluginUnit)
    (meta : PluginMeta)
    (hnd : ((l₁ ++ v :: l₂).map PluginUnit.name).Nodup)
    (hd : isDunderName v.name = false) (hl : v.load = .loads meta) :
    dictGet (discover_plugins (l₁ ++ v :: l₂)) v.name
      = some (mkInfo v.name meta) := by
  obtain ⟨_, hnotin₂⟩ := names_split l₁ l₂ v hnd
  unfold discover_plugins
  rw [List.foldl_append, List.foldl_cons]
  rw [show discoverStep (List.foldl discoverStep [] l₁) v
      = dictInsert (List.foldl discoverStep [] l₁) v.name (mkInfo v.name meta) by
    unfold discoverStep
    rw [if_neg (by simp [hd]), hl]]
  rw [discover_skip l₂ _ _ hnotin₂]
  exact dictGet_dictInsert_self _ _ _

theorem discover_absent (l₁ l₂ : List PluginUnit) (u : PluginUnit)
    (hnd : ((l₁ ++ u :: l₂).map PluginUnit.name).Nodup)
    (hfail : u.load = .fails) :
    dictContains (discover_plugins (l₁ ++ u :: l₂)) u.name = false := by
  obtain ⟨hnotin₁, hnotin₂⟩ := names_split l₁ l₂ u hnd
  unfold discover_plugins
  rw [List.foldl_append, List.foldl_cons]
  rw [show discoverStep (List.foldl discoverStep [] l₁) u
      = List.foldl discoverStep [] l₁ by
    unfold discoverStep
    by_cases hd : isDunderName u.name
    · rw [if_pos hd]
    · rw [if_neg hd, hfail]]
  rw [dictContains_eq_isSome, discover_skip l₂ _ _ hnotin₂,
    discover_skip l₁ _ _ hnotin₁]
  rfl

/-! ## Concrete fixtures for witnesses and counterexamples -/

/-- A plugin whose `run` always returns a valid result. -/
def instA : PluginInst :=
  fun _ => .returns (some "msgA") (some [.intVal 1, .intVal 2, .intVal 3])

/-- A second always-valid plugin with a distinct message. -/
def instB : PluginInst :=
  fun _ => .returns (some "msgB") (some [.intVal 4, .intVal 5, .intVal 6])

/-- A plugin whose `run` always raises. -/
def instRaise : PluginInst := fun _ => .raises

/-- A keypoints-requiring plugin that reports whenever it is invoked. -/
def instKP : PluginInst :=
  fun _ => .returns (some "kp-plugin-ran") (some [.intVal 9, .intVal 9, .intVal 9])

/-- A plugin returning a 3-element color whose components `int()` cannot
    convert: the shape check passes, the message is appended, and the color
    conversion raises. -/
def instBadColor : PluginInst :=
  fun _ => .returns (some "bad-color") (some [.nonIntVal, .nonIntVal, .nonIntVal])

/-- Metadata for a test plugin instance. -/
def mkMeta (i : PluginInst) (rk : Bool) : PluginMeta :=
  { inst := i, display_name := "D", description := "a plugin",
    version := "1.0", category := "general",
    requires_keypoints := rk, requires_hands := false }

def unitA : PluginUnit := { name := "alpha", load := .loads (mkMeta instA false) }

def unitB : PluginUnit := { name := "beta", load := .loads (mkMeta instB false) }

def unitKP : PluginUnit :=
  { name := "kp_checker", load := .loads (mkMeta instKP true) }

def unitBad : PluginUnit := { name := "broken", load := .fails }

/-- A manager that discovered `alpha` then `beta` (registration order). -/
def mgrAB : PluginManager := mkManager [unitA, unitB]

def someArgs : PluginArgs :=
  { frame := 0, annotated := 0, kpts := none, hand_res := none }

def sampleStatus : StatusSnapshot :=
  { frame_count := 1, person_detected := false, hands_detected := false,
    plugin_count := 2, device := "CPU", resolution := "1024x768",
    plugins := [], plugins_loaded := 0, total_plugins := 0,
    model_loaded := "Yes", camera := "Connected" }

/-! ## Claim theorems -/

/-- C6: for every id not present in the registry, `enable_plugin` reports
failure and `toggle_plugin` reports failure, and both return the manager
completely unchanged (enabled set included). -/
theorem enable_toggle_unknown_id (m : PluginManager) (n : String)
    (h : dictContains m.available_plugins n = false) :
    enable_plugin m n = (false, m) ∧ toggle_plugin m n = ((false, false), m) := by
  have hget : dictGet m.available_plugins n = none := by
    rw [dictContains_eq_isSome] at h
    cases hg : dictGet m.available_plugins n with
    | none => rfl
    | some w => rw [hg] at h; exact absurd h (by simp)
  constructor
  · unfold enable_plugin
    rw [hget]
  · unfold toggle_plugin
    rw [hget]

/-- Witness for C6: the concrete manager `mgrAB` with the unknown id
`"ghost"`. -/
theorem enable_toggle_unknown_id_witness :
    enable_plugin mgrAB "ghost" = (false, mgrAB) ∧
    toggle_plugin mgrAB "ghost" = ((false, false), mgrAB) :=
  enable_toggle_unknown_id mgrAB "ghost" (by decide)

/-- C10: registry consistency invariant — it holds after discovery, is
preserved by `enable_plugin`, `disable_plugin` and `toggle_plugin`, and under
it the set of plugins `run_plugins` iterates (the keys of `loaded_plugins`)
equals the set reported as enabled (`get_enabled_plugins`). -/
theorem registry_invariant :
    (∀ units, Invariant (mkManager units)) ∧
    (∀ m n, Invariant m → Invariant (enable_plugin m n).2) ∧
    (∀ m n, Invariant m → Invariant (disable_plugin m n).2) ∧
    (∀ m n, Invariant m → Invariant (toggle_plugin m n).2) ∧
    (∀ m, Invariant m →
      ∀ n, dictContains m.loaded_plugins n = true ↔ n ∈ get_enabled_plugins m) :=
  ⟨invariant_mkManager, invariant_enable, invariant_disable, invariant_toggle,
    loaded_iff_enabled⟩

/-- Witness for C10: the invariant holds for a concrete manager after
discovery and one enable, and the executed set there matches the enabled
set. -/
theorem registry_invariant_witness :
    Invariant (enable_plugin (mkManager [unitA, unitB]) "beta").2 ∧
    (dictContains (enable_plugin (mkManager [unitA, unitB]) "beta").2.loaded_plugins
        "beta" = true ↔
      "beta" ∈ get_enabled_plugins (enable_plugin (mkManager [unitA, unitB]) "beta").2) :=
  have h1 := registry_invariant.1 [unitA, unitB]
  have h2 := registry_invariant.2.1 (mkManager [unitA, unitB]) "beta" h1
  ⟨h2, registry_invariant.2.2.2.2 _ h2 "beta"⟩

/-- C9: with distinct unit names, discovery registers exactly the units that
load successfully — a failing unit leaves no entry under its name, while every
successfully loading unit (anywhere in the scan, before or after the failure)
is registered with its metadata. -/
theorem discovery_isolates_failures (pre post : List PluginUnit) (u : PluginUnit)
    (hnd : ((pre ++ u :: post).map PluginUnit.name).Nodup) :
    (u.load = UnitLoad.fails →
      dictContains (discover_plugins (pre ++ u :: post)) u.name = false) ∧
    (∀ l₁ l₂ v meta, pre ++ u :: post = l₁ ++ v :: l₂ →
      isDunderName v.name = false → v.load = UnitLoad.loads meta →
      dictGet (discover_plugins (pre ++ u :: post)) v.name
        = some (mkInfo v.name meta)) := by
  constructor
  · intro hfail
    exact discover_absent pre post u hnd hfail
  · intro l₁ l₂ v meta heq hd hl
    rw [heq] at hnd ⊢
    exact discover_present l₁ l₂ v meta hnd hd hl

/-- Witness for C9: a failing unit followed by a loading one — the failure
leaves no entry and the later unit is still registered. -/
theorem discovery_isolates_failures_witness :
    dictContains (discover_plugins [unitBad, unitA]) "broken" = false ∧
    dictGet (discover_plugins [unitBad, unitA]) "alpha"
      = some (mkInfo "alpha" (mkMeta instA false)) := by
  have h := discovery_isolates_failures [] [unitA] unitBad (by decide)
  exact ⟨h.1 rfl,
    h.2 [unitBad] [] unitA (mkMeta instA false) rfl (by decide) rfl⟩

/-- C1 counterexample: with two published messages, the `/api/status` document
pairs them with the single hard-coded color `[255, 75, 43]`, so the messages
and colors sequences have different lengths. -/
theorem status_colors_length_mismatch :
    (get_status ["msgA", "msgB"] sampleStatus).messages.length = 2 ∧
    (get_status ["msgA", "msgB"] sampleStatus).colors.length = 1 ∧
    (get_status ["msgA", "msgB"] sampleStatus).messages.length ≠
      (get_status ["msgA", "msgB"] sampleStatus).colors.length := by
  refine ⟨rfl, rfl, ?_⟩
  decide

/-- C1 amended: no published output guarantees the pairing.  At dispatch,
`run_plugins` appends each color only together with its message, so colors is
never longer than messages — but the message append (line 170) precedes the
fallible `int()` color conversion (line 171), so a plugin returning a
3-element non-int-convertible color makes messages strictly longer than
colors even at dispatch.  The loop then drops the colors entirely, and the
`/status` document pairs the messages with `min (messages.length) 1`
synthesized colors. -/
theorem run_plugins_and_status_colors_lengths :
    (∀ loaded args,
      (run_plugins loaded args).2.length ≤ (run_plugins loaded args).1.length) ∧
    (∃ loaded args,
      (run_plugins loaded args).1.length ≠ (run_plugins loaded args).2.length) ∧
    (∀ msgs st, (get_status msgs st).colors.length = min msgs.length 1) := by
  refine ⟨run_plugins_colors_le_messages,
    ⟨[("bad", instBadColor)], someArgs, by decide⟩, fun msgs st => ?_⟩
  cases msgs with
  | nil => rfl
  | cons a l =>
    rw [show (get_status (a :: l) st).colors = [[255, 75, 43]] from by
      simp [get_status]]
    rw [show ([[255, 75, 43]] : List (List Int)).length = 1 from rfl]
    rw [show (a :: l).length = l.length + 1 from rfl]
    omega

/-- The manager `mgrAB` after enabling `beta` first, then `alpha`. -/
def mgrRev : PluginManager :=
  (enable_plugin (enable_plugin mgrAB "beta").2 "alpha").2

/-- C4 counterexample: `alpha` was registered before `beta` (as the
registration-ordered enabled-set report shows), but after enabling `beta`
before `alpha` the dispatch emits `beta`'s message first — execution follows
enable-insertion order, not registration order. -/
theorem dispatch_not_registration_order :
    get_enabled_plugins mgrRev = ["alpha", "beta"] ∧
    (run_plugins mgrRev.loaded_plugins someArgs).1 = ["msgB", "msgA"] ∧
    (run_plugins mgrRev.loaded_plugins someArgs).1 ≠ ["msgA", "msgB"] := by
  refine ⟨by decide, by decide, by decide⟩

/-- C4 amended: within one dispatch, plugins run in the iteration order of
`loaded_plugins` — its insertion order, i.e. the order in which they were
enabled — so the published message sequence is the filter-map of the loaded
list in that order; enabling a not-currently-loaded plugin appends it at the
end of `loaded_plugins`, regardless of its registration position. -/
theorem dispatch_order_is_enable_order :
    (∀ l args, (run_plugins l args).1 = l.filterMap (pluginMsg args)) ∧
    (∀ m n info, dictGet m.available_plugins n = some info →
      info.enabled = false → dictContains m.loaded_plugins n = false →
      (enable_plugin m n).2.loaded_plugins
        = m.loaded_plugins ++ [(n, info.inst)]) := by
  refine ⟨run_plugins_messages_eq_filterMap, fun m n info hget hen hnl => ?_⟩
  unfold enable_plugin
  rw [hget]
  simp only [hen, Bool.false_eq_true, if_false]
  unfold dictInsert
  rw [hnl]
  simp

/-- Witness for C4 (amended): enabling `beta` on the freshly discovered
manager appends it to the (empty) loaded dict. -/
theorem dispatch_order_is_enable_order_witness :
    (enable_plugin mgrAB "beta").2.loaded_plugins
      = mgrAB.loaded_plugins ++ [("beta", (mkInfo "beta" (mkMeta instB false)).inst)] :=
  dispatch_order_is_enable_order.2 mgrAB "beta" (mkInfo "beta" (mkMeta instB false))
    rfl rfl rfl

/-- C3: if an enabled plugin's `run` raises during the dispatch of the cycle
for frame `fc + 1`, the cycle still completes and publishes an output whose
frame counter is `fc + 1`, and its messages and colors are exactly those of
the dispatch with the failing plugin removed — nothing from it appears. -/
theorem plugin_exception_cycle_completes (m : PluginManager) (fc : Nat)
    (ci : CycleInput) (hres : HandRes)
    (l₁ l₂ : AList PluginInst) (pname : String) (inst : PluginInst)
    (hhands : ci.hands = .ok hres)
    (hload : m.loaded_plugins = l₁ ++ (pname, inst) :: l₂)
    (hraise : inst (cycleArgs ci hres) = .raises) :
    ∃ out, run_cycle m fc ci = .ok out ∧
      out.frame_count = fc + 1 ∧
      out.status.frame_count = fc + 1 ∧
      (out.messages, out.colors) = run_plugins (l₁ ++ l₂) (cycleArgs ci hres) := by
  have hskip : run_plugins m.loaded_plugins (cycleArgs ci hres)
      = run_plugins (l₁ ++ l₂) (cycleArgs ci hres) := by
    rw [hload, run_plugins_append, run_plugins_cons, run_plugins_append]
    rw [show pluginContrib (cycleArgs ci hres) (pname, inst)
        = PluginContrib.nothing by
      unfold pluginContrib
      rw [show (pname, inst).2 = inst from rfl, hraise]]
  simp only [run_cycle, hhands]
  exact ⟨_, rfl, rfl, rfl, by rw [← hskip]⟩

/-- A manager with one loaded plugin that always raises. -/
def mgrRaise : PluginManager :=
  { available_plugins := [], loaded_plugins := [("boom", instRaise)] }

/-- A cycle input on which both detectors succeed (no person, no hands). -/
def ciOk : CycleInput :=
  { frame_small := 3, pose := .ok 4 (.ok []), hands := .ok none, cuda := false }

/-- Witness for C3: the always-raising plugin on a concrete cycle. -/
theorem plugin_exception_cycle_completes_witness :
    ∃ out, run_cycle mgrRaise 7 ciOk = .ok out ∧
      out.frame_count = 7 + 1 ∧
      out.status.frame_count = 7 + 1 ∧
      (out.messages, out.colors) = run_plugins [] (cycleArgs ciOk none) :=
  plugin_exception_cycle_completes mgrRaise 7 ciOk none [] [] "boom" instRaise
    rfl rfl rfl

/-- A cycle input whose hand-detector call raises. -/
def ciHandsRaise : CycleInput :=
  { frame_small := 3, pose := .ok 4 (.ok [[(1, 2, 3)]]), hands := .raises,
    cuda := false }

/-- C7 counterexample: when the hand-landmark detector raises, the iteration
does not produce a recovered output — the exception propagates out of the
loop body (`hands.process` at line 1543 is outside every `try`), so the claim
fails for one of the two detectors. -/
theorem hands_exception_propagates :
    run_cycle mgrAB 0 ciHandsRaise = .error () := rfl

/-- C7 amended: only the pose estimator's failure is recovered — on a YOLO
exception the iteration continues with the unannotated frame copy and absent
keypoints and still publishes; a hand-detector exception is not caught and
terminates the iteration. -/
theorem pose_exception_recovered (m : PluginManager) (fc : Nat)
    (ci : CycleInput) (hres : HandRes)
    (hpose : ci.pose = .raises) (hhands : ci.hands = .ok hres) :
    ∃ out, run_cycle m fc ci = .ok out ∧
      out.annotated = ci.frame_small ∧ out.kpts = none ∧
      out.status.person_detected = false := by
  simp only [run_cycle, hhands]
  exact ⟨_, rfl, by rw [hpose]; rfl, by rw [hpose]; rfl, by rw [hpose]; rfl⟩

/-- A cycle input whose pose call raises but whose hand call succeeds. -/
def ciPoseRaise : CycleInput :=
  { frame_small := 5, pose := .raises, hands := .ok none, cuda := false }

/-- Witness for C7 (amended): a concrete pose-detector failure is recovered. -/
theorem pose_exception_recovered_witness :
    ∃ out, run_cycle mgrAB 2 ciPoseRaise = .ok out ∧
      out.annotated = ciPoseRaise.frame_small ∧ out.kpts = none ∧
      out.status.person_detected = false :=
  pose_exception_recovered mgrAB 2 ciPoseRaise none rfl rfl

/-- C8: the per-frame inference step keeps at most one keypoint set — the
first/primary detected person — even when the model reports keypoints for
several people. -/
theorem primary_person_only :
    (∀ arr : List KeypointSet, extract_kpts arr = arr.head?) ∧
    (∀ (m : PluginManager) (fc : Nat) (ci : CycleInput) (a : Frame)
      (persons : List KeypointSet) (hres : HandRes),
      ci.pose = .ok a (.ok persons) → ci.hands = .ok hres →
      ∃ out, run_cycle m fc ci = .ok out ∧ out.kpts = persons.head?) := by
  constructor
  · intro arr
    cases arr <;> rfl
  · intro m fc ci a persons hres hpose hhands
    simp only [run_cycle, hhands]
    refine ⟨_, rfl, ?_⟩
    rw [show pose_kpts ci.pose = extract_kpts persons by rw [hpose]; rfl]
    cases persons <;> rfl

/-- A cycle input on which the model reports two people. -/
def ciTwoPersons : CycleInput :=
  { frame_small := 1, pose := .ok 2 (.ok [[(10, 20, 1)], [(30, 40, 1)]]),
    hands := .ok none, cuda := false }

/-- Witness for C8: with two detected people, the cycle's keypoints are the
first person's. -/
theorem primary_person_only_witness :
    ∃ out, run_cycle mgrAB 0 ciTwoPersons = .ok out ∧
      out.kpts = ([[(10, 20, 1)], [(30, 40, 1)]] : List KeypointSet).head? :=
  primary_person_only.2 mgrAB 0 ciTwoPersons 2 [[(10, 20, 1)], [(30, 40, 1)]]
    none rfl rfl

/-- A manager with the keypoints-requiring plugin discovered and enabled. -/
def mgrKP : PluginManager := (enable_plugin (mkManager [unitKP]) "kp_checker").2

/-- A cycle input where the pose model reports no person at all. -/
def ciNoPerson : CycleInput :=
  { frame_small := 7, pose := .ok 8 (.ok []), hands := .ok none, cuda := false }

/-- C5 counterexample: `kp_checker` declares `requires_keypoints = true`, the
cycle's keypoint set is absent, yet the plugin is invoked — its message is
published in that cycle's output. -/
theorem requires_keypoints_not_gated :
    (dictGet mgrKP.available_plugins "kp_checker").map
        (fun i => (i.requires_keypoints, i.enabled)) = some (true, true) ∧
    pose_kpts ciNoPerson.pose = none ∧
    ∃ out, run_cycle mgrKP 0 ciNoPerson = .ok out ∧
      out.messages = ["kp-plugin-ran"] := by
  refine ⟨rfl, rfl, _, rfl, rfl⟩

/-- C5 amended: dispatch never consults the capability flags — every loaded
plugin's `run` is called even on a cycle whose keypoint set is absent, and
when that call returns a valid result its message is published at the
plugin's position. -/
theorem requires_keypoints_advisory_only (l₁ l₂ : AList PluginInst)
    (n : String) (inst : PluginInst) (args : PluginArgs)
    (m : String) (c : List ColorVal)
    (_hk : args.kpts = none)
    (hrun : inst args = .returns (some m) (some c))
    (hm : m ≠ "") (hc : c ≠ []) (h3 : c.length = 3) :
    (run_plugins (l₁ ++ (n, inst) :: l₂) args).1 =
      (run_plugins l₁ args).1 ++ m :: (run_plugins l₂ args).1 := by
  rw [run_plugins_messages_eq_filterMap, run_plugins_messages_eq_filterMap,
    run_plugins_messages_eq_filterMap, List.filterMap_append,
    List.filterMap_cons]
  rw [show pluginMsg args (n, inst) = some m by
    unfold pluginMsg
    rw [show (n, inst).2 = inst from rfl, hrun]
    show (if m ≠ "" ∧ c ≠ [] ∧ c.length = 3 then some m else none) = some m
    exact if_pos ⟨hm, hc, h3⟩]

/-- Witness for C5 (amended): the keypoints-requiring plugin runs between two
neighbors on a keypoint-free cycle. -/
theorem requires_keypoints_advisory_only_witness :
    (run_plugins [("alpha", instA), ("kp_checker", instKP)] someArgs).1 =
      (run_plugins [("alpha", instA)] someArgs).1 ++
        "kp-plugin-ran" :: (run_plugins [] someArgs).1 :=
  requires_keypoints_advisory_only [("alpha", instA)] [] "kp_checker" instKP
    someArgs "kp-plugin-ran" [.intVal 9, .intVal 9, .intVal 9]
    rfl rfl (by decide) (by decide) rfl

/-- The torn schedule: the reader's two loads fall between the producer's
`current_frame` write and `current_messages` write of cycle 2. -/
def tornSchedule : List Action :=
  [.writeFrame 1, .writeMsgs 1, .writeStatus 1,
   .writeFrame 2, .readFrame, .readMsgs, .writeMsgs 2, .writeStatus 2]

/-- C2 fails on the code: there is an interleaving of the producer's
publication writes for cycles 1 and 2 with a reader's frame/messages loads —
permitted because the publish is three separate unsynchronized global
assignments — in which the reader observes cycle 2's frame paired with cycle
1's messages: a torn snapshot mixing two iterations. -/
theorem torn_snapshot_reachable :
    ∃ tr, Interleaves tr (producerActions 2) readerActions ∧
      (execShared initShared tr).obsFrame = 2 ∧
      (execShared initShared tr).obsMsgs = 1 ∧
      (execShared initShared tr).obsFrame ≠ (execShared initShared tr).obsMsgs := by
  refine ⟨tornSchedule, ?_, rfl, rfl, by decide⟩
  rw [show producerActions 2 = [Action.writeFrame 1, Action.writeMsgs 1,
      Action.writeStatus 1, Action.writeFrame 2, Action.writeMsgs 2,
      Action.writeStatus 2] from rfl]
  exact .left (.left (.left (.left (.right (.right (.left (.left .nil)))))))

end Gesture
